import Mathlib

/-!
Verification of the omnipr branch-reconciliation and changeset-commit
pipeline.  The repository contains two generations of the library:

* the current generation: `omnipr` / `createPr` (src/omnipr.ts) over the
  `Provider` interface, with `GithubProvider` (src/providers/github.ts) and
  `BitbucketProvider` (src/providers/bitbucket.ts);
* an older generation over the `GitProvider` interface (src/shared/types.ts)
  with `GitlabProvider.writeChanges` (src/providers/gitlab.ts) and an older
  `BitbucketProvider.writeChanges`.

Each definition below is a shallow embedding of one of those functions;
the source file and line ranges are named in the doc comments.  JavaScript
values that may be `undefined` are embedded as `Option String`, and
JavaScript truthiness of such values is made explicit.
-/

/-- Truthiness of a JavaScript string: every string except `""` is truthy. -/
def strTruthy (s : String) : Bool := s != ""

/-- Truthiness of a JavaScript value that is either a string or `undefined`
(embedded as `Option String`): `undefined` and `""` are falsy. -/
def optStrTruthy : Option String → Bool
  | none => false
  | some s => strTruthy s

/-- Substring test on character lists, used to embed JavaScript
`String.prototype.includes`. -/
def charsHasSub (needle : List Char) : List Char → Bool
  | [] => needle.isEmpty
  | c :: rest => needle.isPrefixOf (c :: rest) || charsHasSub needle rest

/-- JavaScript `haystack.includes(needle)`. -/
def jsIncludes (haystack needle : String) : Bool :=
  charsHasSub needle.data haystack.data

/-- An HTTP response as observed by the providers through `fetch`:
status code, status text and the textual body. -/
structure HttpResp where
  status : Nat
  statusText : String
  body : String
  deriving DecidableEq, Repr

/-- The `Response.ok` flag of the Fetch API: status in the range 200-299. -/
def respOk (r : HttpResp) : Bool :=
  decide (200 ≤ r.status ∧ r.status ≤ 299)

/-- Error message composed by `GithubProvider.request` / `getFileContent`
(src/providers/github.ts:44-46, 100-103):
`GitHub API error: ${status} ${statusText} - ${errorBody}`. -/
def githubApiError (r : HttpResp) : String :=
  "GitHub API error: " ++ toString r.status ++ " " ++ r.statusText ++ " - " ++ r.body

/-- Error message composed by `BitbucketProvider.request` / `getFileContent` /
`pull` (src/providers/bitbucket.ts:52-54, 113-115, 135-138). -/
def bitbucketApiError (r : HttpResp) : String :=
  "Bitbucket API error: " ++ toString r.status ++ " " ++ r.statusText ++ " - " ++ r.body

/-!
Changeset compiler, old generation.

`Change` (src/shared/types.ts:1-6) is
`string | ((file: {exists, path, contents}) => string | null) | null`.
In `GitlabProvider.writeChanges` (src/providers/gitlab.ts:189-198) the
resolver receives `contents: existingFiles[file]`, a raw object lookup that
is `undefined` when the key is absent, so the embedded resolver takes the
contents argument as `Option String` (`none` = `undefined`).  The resolver's
arguments are passed in the order (exists, path, contents).
-/

/-- A `ChangeRequest` of the old generation (src/shared/types.ts:1-6). -/
inductive Change where
  | lit : String → Change
  | null : Change
  | fn : (Bool → String → Option String → Option String) → Change

/-- A `ChangeRequest` of the current generation
(`FileChange`, src/shared/types.ts of the current generation):
`createPr` always passes `contents: existingContent ?? ''`, a definite
string, so the resolver takes `String` for contents. -/
inductive FileChange where
  | lit : String → FileChange
  | null : FileChange
  | fn : (Bool → String → String → Option String) → FileChange

/-- JavaScript `Object.fromEntries` followed by an index lookup:
the last entry for a key wins; a missing key gives `undefined`. -/
def objLookup (entries : List (String × String)) (key : String) : Option String :=
  (entries.reverse.find? (fun e => e.1 == key)).map (·.2)

/-- An element of the `actions` array built by `GitlabProvider.writeChanges`
(src/providers/gitlab.ts:208-212): `{ action, file_path, content }`,
where `content` is `none` for a JavaScript `null`. -/
structure GLAction where
  action : String
  file_path : String
  content : Option String
  deriving DecidableEq, Repr

/-- Resolution of one change value in `GitlabProvider.writeChanges`
(src/providers/gitlab.ts:190-198): a resolver function is invoked with
`exists: !!existingFiles[file]` (truthiness of the lookup) and
`contents: existingFiles[file]` (the raw lookup, `undefined` when absent). -/
def gitlabResolveContent (existing : String → Option String) (file : String) :
    Change → Option String
  | .lit s => some s
  | .null => none
  | .fn f => f (optStrTruthy (existing file)) file (existing file)

/-- One iteration of the compile loop of `GitlabProvider.writeChanges`
(src/providers/gitlab.ts:189-213).  The action kind is `delete` when the
resolved content is `null`, else `create` when `!existingFiles[file]`,
else `update`.  The resolution and kind logic of the older
`BitbucketProvider.writeChanges` (src/unnamed/part_004:158-175) is
identical, with deletes collected in a `files` form field. -/
def gitlabCompileOne (existing : String → Option String) (file : String)
    (change : Change) : GLAction :=
  let fileContent : Option String := gitlabResolveContent existing file change
  { action :=
      if fileContent.isNone then "delete"
      else if !(optStrTruthy (existing file)) then "create"
      else "update"
    file_path := file
    content := fileContent }

/-- The full `actions` array built by `GitlabProvider.writeChanges`
(src/providers/gitlab.ts:187-213), in insertion order of the change map. -/
def gitlabCompile (existing : String → Option String)
    (changes : List (String × Change)) : List GLAction :=
  changes.map (fun c => gitlabCompileOne existing c.1 c.2)

/-- Resolution of one change by `createPr` (src/omnipr.ts:41-55):
a literal string or `null` is kept as is; a resolver is invoked with
`exists: existingContent !== undefined`, the path, and
`contents: existingContent ?? ''`, where `existingContent` is the result
of `provider.getFileContent(sourceBranch, filePath)`. -/
def createPrResolveOne (getFileContent : String → Option String)
    (filePath : String) (change : FileChange) : Option String :=
  match change with
  | .lit s => some s
  | .null => none
  | .fn f =>
      f (getFileContent filePath).isSome filePath ((getFileContent filePath).getD "")

/-- The `changes` record computed by step 2 of `createPr`
(src/omnipr.ts:40-55), in insertion order of the change map. -/
def createPrResolve (getFileContent : String → Option String)
    (changes : List (String × FileChange)) : List (String × Option String) :=
  changes.map (fun c => (c.1, createPrResolveOne getFileContent c.1 c.2))

/-- JavaScript `s.startsWith(p)` / the TS `String#startsWith` calls, on the
character lists of the strings. -/
def jsStartsWith (s p : String) : Bool :=
  p.data.isPrefixOf s.data

/-- Modelled from the spec: the module `shared/normalize-path` imported by
`GitlabProvider` (src/providers/gitlab.ts:7) and the older
`BitbucketProvider` (src/unnamed/part_004:3) is not in the source sample.
Per the spec's glossary a scope path is "an optional directory prefix …
transparently stripped/re-added at the boundary", so normalization is
modelled as trimming leading and trailing slashes. -/
def normalizePath (p : String) : String :=
  String.mk (((p.data.dropWhile (· == '/')).reverse.dropWhile (· == '/')).reverse)

/-- The GitLab `GET repository/tree?path=…&recursive=true` endpoint
(src/providers/gitlab.ts:143-151) over a repository tree modelled as a list
of blob entries (full path, content): it lists the blobs under the
requested directory, keyed by full path.  An empty path lists the whole
tree. -/
def treeUnder (tree : List (String × String)) (p : String) : List (String × String) :=
  if p == "" then tree else tree.filter (fun e => jsStartsWith e.1 (p ++ "/"))

/-- The `filesToPick` projection of `GitlabProvider.getFilesFromSourceBranch`
(src/providers/gitlab.ts:157-161): applied only when the list is a
non-empty array. -/
def gitlabPickFiles (listing : List (String × String))
    (filesToPick : Option (List String)) : List (String × String) :=
  match filesToPick with
  | some fs => if 0 < fs.length then listing.filter (fun e => fs.contains e.1) else listing
  | none => listing

/-- `GitlabProvider.getFilesFromSourceBranch` (src/providers/gitlab.ts:132-179):
when a truthy `path` option is given, the path is normalized and each
requested file name is prefixed with `${path}/`; the tree is listed under
the path; blobs are filtered by the projection; each picked file's content
is fetched and the result is keyed by the entry's full path.  Content
fetches are modelled by the tree itself (the fetch returns the stored
blob). -/
def gitlabGetFiles (tree : List (String × String)) (pathOpt : Option String)
    (filesOpt : Option (List String)) : List (String × String) :=
  let usePath := match pathOpt with | some p => strTruthy p | none => false
  let path := if usePath then normalizePath (pathOpt.getD "") else ""
  let filesToPick :=
    if usePath then filesOpt.map (List.map (fun f => path ++ "/" ++ f)) else filesOpt
  gitlabPickFiles (treeUnder tree path) filesToPick

/-- `GitlabProvider.writeChanges` (src/providers/gitlab.ts:181-213) up to the
commit request: reads the existing files for the change keys under the
`path` option, then compiles the actions; the existence lookups and the
emitted `file_path`s use the raw (unprefixed) change keys. -/
def gitlabWriteChanges (tree : List (String × String)) (pathOpt : Option String)
    (changes : List (String × Change)) : List GLAction :=
  gitlabCompile
    (objLookup (gitlabGetFiles tree pathOpt (some (changes.map (·.1)))))
    changes

/-- C1 counterexample: in `GitlabProvider.writeChanges` a stored
empty-string file ("a.txt" has content `""`) makes the compiler invoke the
resolver with `exists = false`, not `exists = true` as the claim states:
the resolver below returns "exists-false" exactly when it received
`exists = false`, and that is the compiled content. -/
theorem c1_stored_empty_file_cex :
    (fun p => if p == "a.txt" then some "" else none : String → Option String) "a.txt"
      = some ""
    ∧ gitlabCompileOne (fun p => if p == "a.txt" then some "" else none) "a.txt"
        (Change.fn (fun e _ _ => some (if e then "exists-true" else "exists-false")))
      = ⟨"create", "a.txt", some "exists-false"⟩ :=
  ⟨rfl, rfl⟩

/-- C1 (amended): in `createPr` (src/omnipr.ts:41-55) a resolver is invoked
with `exists = false` and `contents = ""` when no file is stored at the
path, and with `exists = true` and the exact stored content when a file is
stored there (also for a stored empty string).  In the
`writeChanges` compilers (src/providers/gitlab.ts:189-198,
src/unnamed/part_004:158-175) the resolver instead receives as `exists` the
truthiness of the existing-files lookup — so a stored empty-string file
yields `exists = false` — and as `contents` the raw lookup, which is
`undefined` (not `""`) when the file is absent. -/
theorem c1_resolver_arguments (gfc ef : String → Option String) (fp c : String)
    (f : Bool → String → String → Option String)
    (g : Bool → String → Option String → Option String) :
    (gfc fp = none → createPrResolveOne gfc fp (.fn f) = f false fp "")
    ∧ (gfc fp = some c → createPrResolveOne gfc fp (.fn f) = f true fp c)
    ∧ (ef fp = none → gitlabResolveContent ef fp (.fn g) = g false fp none)
    ∧ (ef fp = some c →
        gitlabResolveContent ef fp (.fn g) = g (strTruthy c) fp (some c)) := by
  refine ⟨fun h => ?_, fun h => ?_, fun h => ?_, fun h => ?_⟩ <;>
    simp [createPrResolveOne, gitlabResolveContent, optStrTruthy, h]

/-- C1 witness: the amended theorem applied to concrete stores; the
resolvers print the `exists` flag and contents they received. -/
theorem c1_resolver_arguments_witness :
    createPrResolveOne (fun _ => none) "a.txt"
      (FileChange.fn (fun e _ c => some (toString e ++ "|" ++ c))) = some "false|"
    ∧ createPrResolveOne (fun _ => some "v1") "a.txt"
      (FileChange.fn (fun e _ c => some (toString e ++ "|" ++ c))) = some "true|v1"
    ∧ gitlabResolveContent (fun _ => some "") "a.txt"
      (Change.fn (fun e _ _ => some (toString e))) = some "false" :=
  ⟨(c1_resolver_arguments (fun _ => none) (fun _ => none) "a.txt" ""
      (fun e _ c => some (toString e ++ "|" ++ c)) (fun e _ _ => some (toString e))).1 rfl,
   (c1_resolver_arguments (fun _ => some "v1") (fun _ => none) "a.txt" "v1"
      (fun e _ c => some (toString e ++ "|" ++ c)) (fun e _ _ => some (toString e))).2.1 rfl,
   (c1_resolver_arguments (fun _ => none) (fun _ => some "") "a.txt" ""
      (fun e _ c => some (toString e ++ "|" ++ c))
      (fun e _ _ => some (toString e))).2.2.2 rfl⟩

/-- C3 counterexample: against an existing file "a.txt" whose stored
content is the empty string, the change `{"a.txt": "x"}` compiles to a
`create` action, not the `update` the claim requires for a path with an
existing entry. -/
theorem c3_empty_string_file_cex :
    (fun p => if p == "a.txt" then some "" else none : String → Option String) "a.txt"
      = some ""
    ∧ gitlabCompile (fun p => if p == "a.txt" then some "" else none)
        [("a.txt", Change.lit "x")]
      = [⟨"create", "a.txt", some "x"⟩] :=
  ⟨rfl, rfl⟩

/-- C3 (amended): every compiled action has kind `delete` iff the resolved
content is `null`; kind `create` iff the content is non-null and the
existing-files lookup at the path is falsy — i.e. the path is absent or its
stored content is the empty string; otherwise `update`.  Compiling
`{"a.txt": "hello"}` against an empty tree yields exactly
`[{action: "create", file_path: "a.txt", content: "hello"}]`. -/
theorem c3_action_kinds (existing : String → Option String)
    (changes : List (String × Change)) :
    (∀ a ∈ gitlabCompile existing changes,
      (a.action = "delete" ↔ a.content = none)
      ∧ (a.action = "create" ↔
          a.content ≠ none ∧ optStrTruthy (existing a.file_path) = false)
      ∧ (a.action = "update" ↔
          a.content ≠ none ∧ optStrTruthy (existing a.file_path) = true))
    ∧ gitlabCompile (fun _ => none) [("a.txt", Change.lit "hello")]
      = [⟨"create", "a.txt", some "hello"⟩] := by
  constructor
  · intro a ha
    simp only [gitlabCompile, List.mem_map] at ha
    obtain ⟨⟨file, ch⟩, _, rfl⟩ := ha
    cases hfc : gitlabResolveContent existing file ch with
    | none => simp [gitlabCompileOne, hfc]
    | some s =>
        by_cases ht : optStrTruthy (existing file) <;>
          simp [gitlabCompileOne, hfc, ht]
  · rfl

/-- C3 witness: the kind characterization applied to a concrete compile of
a `null` change against a store holding the file. -/
theorem c3_action_kinds_witness :
    (gitlabCompileOne (fun _ => some "v") "f" Change.null).action = "delete" := by
  have h := (c3_action_kinds (fun _ => some "v") [("f", Change.null)]).1
    (gitlabCompileOne (fun _ => some "v") "f" Change.null) (by simp [gitlabCompile])
  exact h.1.mpr rfl

/-!
Branch preparation, step 1 of `createPr` (src/omnipr.ts:20-37).

The remote branch store is a map from branch name to head commit sha.
`getBranchSha` is the lookup; `createBranch` fails when the ref already
exists (GitHub `POST /git/refs`, src/providers/github.ts:71-76, responds
with an error that `request` throws); `deleteBranch` fails when the ref is
absent (src/providers/github.ts:78-80).  `createPr` tests the returned shas
with JavaScript truthiness (`!targetBranchSha`, `sourceBranchExists &&`).
-/

/-- Pointwise update of a name-to-value store (branch map or file tree):
point `name` at `v` (`none` removes it). -/
def storeSet (st : String → Option String) (name : String) (v : Option String) :
    String → Option String :=
  fun b => if b = name then v else st b

/-- `createBranch(branchName, sha)`: errors when the ref already exists. -/
def createBranchOp (st : String → Option String) (name sha : String) :
    Option (String → Option String) :=
  if (st name).isSome then none else some (storeSet st name (some sha))

/-- `deleteBranch(branchName)`: errors when the ref is absent. -/
def deleteBranchOp (st : String → Option String) (name : String) :
    Option (String → Option String) :=
  if (st name).isSome then some (storeSet st name none) else none

/-- One branch create or delete call issued against the remote. -/
inductive BranchOp where
  | create : String → String → BranchOp
  | delete : String → BranchOp
  deriving DecidableEq, Repr

/-- Step 1 of `createPr` (src/omnipr.ts:20-37): resolve the target sha
(throw when falsy), resolve the source sha; when the source is truthy and
reset is requested, delete then recreate it from the target sha resolved at
the start; when the source is falsy, create it; otherwise leave the store
untouched.  Returns the resulting store and the list of create/delete
calls issued; `none` is a thrown error. -/
def prepareBranches (st : String → Option String) (sourceBranch targetBranch : String)
    (reset : Bool) : Option ((String → Option String) × List BranchOp) :=
  match st targetBranch with
  | none => none
  | some t =>
    if !(strTruthy t) then none
    else
      let srcSha := st sourceBranch
      if optStrTruthy srcSha && reset then
        match deleteBranchOp st sourceBranch with
        | none => none
        | some st1 =>
          match createBranchOp st1 sourceBranch t with
          | none => none
          | some st2 => some (st2, [.delete sourceBranch, .create sourceBranch t])
      else if !(optStrTruthy srcSha) then
        match createBranchOp st sourceBranch t with
        | none => none
        | some st2 => some (st2, [.create sourceBranch t])
      else some (st, [])

/-!
PR reconciliation, `GithubProvider.createPullRequest`
(src/providers/github.ts:213-246): list the open PRs for
`head=owner:sourceBranch&base=targetBranch`; when one exists, PATCH its
title/body and return its link; otherwise POST a new PR.
`BitbucketProvider.createPullRequest` (src/providers/bitbucket.ts:205-248)
differs only in endpoint plumbing (a `q` filter on open state, source and
destination branch, then PUT or POST); both are embedded by
`githubCreatePullRequest` below over an abstract store of pull requests.
-/

/-- A pull request as stored by the provider. -/
structure PullReq where
  number : Nat
  headRef : String
  baseRef : String
  state : String
  title : String
  body : Option String
  html_url : String
  deriving DecidableEq, Repr

/-- The server-side filter `state=open&head=owner:src&base=tgt` of the
existing-PR search (src/providers/github.ts:219-224). -/
def prMatch (src tgt : String) (pr : PullReq) : Bool :=
  pr.state == "open" && pr.headRef == src && pr.baseRef == tgt

/-- JSON.stringify drops `undefined` fields, so a PATCH with an absent
description leaves the stored body unchanged. -/
def patchField (old newVal : Option String) : Option String :=
  match newVal with
  | some v => some v
  | none => old

/-- The server applying `PATCH /pulls/{n}` with a title and optional body
(src/providers/github.ts:227-235) to one stored pull request. -/
def prPatch (n : Nat) (t : String) (d : Option String) (p : PullReq) : PullReq :=
  if p.number == n then { p with title := t, body := patchField p.body d } else p

/-- Server-assigned number for a newly created pull request. -/
def freshPrNumber (prs : List PullReq) : Nat :=
  (prs.map (·.number)).foldr max 0 + 1

/-- Server-assigned link of a pull request. -/
def prUrl (n : Nat) : String :=
  "https://example.invalid/pulls/" ++ toString n

/-- `createPullRequest(sourceBranch, targetBranch, title, description)`
(src/providers/github.ts:213-246; same reconciliation structure in
src/providers/bitbucket.ts:205-248): search the open PRs for the pair;
if one exists, update the first match and return its link; otherwise
create a new open PR and return its link. -/
def githubCreatePullRequest (prs : List PullReq) (src tgt title : String)
    (descr : Option String) : List PullReq × String :=
  match prs.filter (prMatch src tgt) with
  | [] =>
      let n := freshPrNumber prs
      (prs ++ [⟨n, src, tgt, "open", title, descr, prUrl n⟩], prUrl n)
  | pr0 :: _ =>
      (prs.map (prPatch pr0.number title descr), pr0.html_url)

/-- Number of open pull requests stored for a (source, target) pair. -/
def openPrCount (prs : List PullReq) (src tgt : String) : Nat :=
  (prs.filter (prMatch src tgt)).length

theorem prMatch_prPatch (src tgt : String) (n : Nat) (t : String) (d : Option String)
    (p : PullReq) : prMatch src tgt (prPatch n t d p) = prMatch src tgt p := by
  unfold prPatch
  by_cases h : p.number == n <;> simp [h, prMatch]

theorem prPatch_html_url (n : Nat) (t : String) (d : Option String) (p : PullReq) :
    (prPatch n t d p).html_url = p.html_url := by
  unfold prPatch
  by_cases h : p.number == n <;> simp [h]

theorem prPatch_self_title (t : String) (d : Option String) (p : PullReq) :
    (prPatch p.number t d p).title = t := by
  simp [prPatch]

theorem prPatch_self_body (t : String) (d : Option String) (p : PullReq) :
    (prPatch p.number t d p).body = patchField p.body d := by
  simp [prPatch]

theorem filter_prPatch (src tgt : String) (n : Nat) (t : String) (d : Option String)
    (l : List PullReq) :
    (l.map (prPatch n t d)).filter (prMatch src tgt)
      = (l.filter (prMatch src tgt)).map (prPatch n t d) := by
  induction l with
  | nil => rfl
  | cons p rest ih =>
      simp only [List.map_cons, List.filter_cons, prMatch_prPatch]
      cases h : prMatch src tgt p <;> simp [h, ih]

/-- C2: scoped write against the tree `{"docs/a.txt": "x"}` with base path
"docs" and change `{"a.txt": resolver}`.  The existing-files read does find
the file — the map is keyed by the prefixed path "docs/a.txt" (second
conjunct) — but the compiled action stores the unprefixed path "a.txt"
(not `${basePath}/${path}` = "docs/a.txt") and the existence lookup used
the unprefixed key, so the resolver received `exists = false` (it returns
"F" exactly when it sees `false`).  This contradicts the claim, the spec,
and the `writeChanges` contract documented in src/shared/types.ts:154-183. -/
theorem c2_scope_prefix_bug :
    gitlabWriteChanges [("docs/a.txt", "x")] (some "docs")
        [("a.txt", Change.fn (fun e _ _ => some (if e then "T" else "F")))]
      = [⟨"create", "a.txt", some "F"⟩]
    ∧ objLookup
        (gitlabGetFiles [("docs/a.txt", "x")] (some "docs") (some ["a.txt"]))
        "docs/a.txt" = some "x" :=
  ⟨rfl, rfl⟩

/-- C5: when both branches exist (with truthy shas), branch preparation
with reset deletes and recreates the source branch, and afterwards the
source branch's head equals the target's head as resolved at the start of
the call, regardless of the source's prior head `s`. -/
theorem c5_reset_aligns_head (st : String → Option String) (src tgt t s : String)
    (htgt : st tgt = some t) (ht : t ≠ "") (hsrc : st src = some s) (hs : s ≠ "") :
    ∃ st', prepareBranches st src tgt true
        = some (st', [.delete src, .create src t])
      ∧ st' src = some t := by
  refine ⟨storeSet (storeSet st src none) src (some t), ?_, ?_⟩
  · simp [prepareBranches, htgt, hsrc, strTruthy, optStrTruthy, ht, hs,
      deleteBranchOp, createBranchOp, storeSet]
  · simp [storeSet]

/-- C5 witness: resetting "feature" against "main" in a concrete store. -/
theorem c5_reset_aligns_head_witness :
    ∃ st', prepareBranches
        (fun b => if b = "main" then some "sha0"
                  else if b = "feature" then some "f1" else none)
        "feature" "main" true
        = some (st', [.delete "feature", .create "feature" "sha0"])
      ∧ st' "feature" = some "sha0" :=
  c5_reset_aligns_head
    (fun b => if b = "main" then some "sha0"
              else if b = "feature" then some "f1" else none)
    "feature" "main" "sha0" "f1" rfl (by decide) rfl (by decide)

/-- C7: when the source branch exists (truthy sha) and reset is not
requested, branch preparation issues no create or delete call and leaves
the store untouched, and running it twice in a row yields the same result
(idempotence of prepare without reset). -/
theorem c7_prepare_no_reset_idempotent (st : String → Option String)
    (src tgt t s : String)
    (htgt : st tgt = some t) (ht : t ≠ "") (hsrc : st src = some s) (hs : s ≠ "") :
    prepareBranches st src tgt false = some (st, [])
    ∧ (prepareBranches st src tgt false).bind
        (fun r => prepareBranches r.1 src tgt false) = some (st, []) := by
  have h1 : prepareBranches st src tgt false = some (st, []) := by
    simp [prepareBranches, htgt, hsrc, strTruthy, optStrTruthy, ht, hs]
  refine ⟨h1, ?_⟩
  rw [h1]
  simpa using h1

/-- C7 witness: preparing an existing "feature" branch without reset in a
concrete store touches nothing, twice. -/
theorem c7_prepare_no_reset_idempotent_witness :
    prepareBranches
        (fun b => if b = "main" then some "sha0"
                  else if b = "feature" then some "f1" else none)
        "feature" "main" false
      = some ((fun b => if b = "main" then some "sha0"
                        else if b = "feature" then some "f1" else none), []) :=
  (c7_prepare_no_reset_idempotent
    (fun b => if b = "main" then some "sha0"
              else if b = "feature" then some "f1" else none)
    "feature" "main" "sha0" "f1" rfl (by decide) rfl (by decide)).1

/-- C4: running `createPullRequest` twice for the same (source, target)
pair creates at most one open pull request: the open-PR count after two
runs is 1 when no open PR for the pair existed, and unchanged otherwise;
the second run creates no pull request (the store size is unchanged),
updates the first matching open PR's title and description — the stored
body becomes the new description when one is supplied, and stays untouched
when the description is absent, since `JSON.stringify` drops the
`undefined` field — and returns that PR's link. -/
theorem c4_pr_dedup (prs : List PullReq) (src tgt t1 t2 : String)
    (d1 d2 : Option String) (s1 : List PullReq) (link1 : String)
    (s2 : List PullReq) (link2 : String)
    (h1 : githubCreatePullRequest prs src tgt t1 d1 = (s1, link1))
    (h2 : githubCreatePullRequest s1 src tgt t2 d2 = (s2, link2)) :
    openPrCount s2 src tgt
      = (if openPrCount prs src tgt = 0 then 1 else openPrCount prs src tgt)
    ∧ s2.length = s1.length
    ∧ ((s1.filter (prMatch src tgt)).head?).map (·.html_url) = some link2
    ∧ ∃ pr0 pr, (s1.filter (prMatch src tgt)).head? = some pr0
        ∧ pr ∈ s2 ∧ pr.title = t2 ∧ pr.body = patchField pr0.body d2
        ∧ pr.html_url = link2 := by
  cases h0 : prs.filter (prMatch src tgt) with
  | nil =>
      simp only [githubCreatePullRequest, h0] at h1
      rw [Prod.mk.injEq] at h1
      obtain ⟨hs1, hl1⟩ := h1
      have hnew : prMatch src tgt
          ⟨freshPrNumber prs, src, tgt, "open", t1, d1, prUrl (freshPrNumber prs)⟩
            = true := by simp [prMatch]
      have hf1 : s1.filter (prMatch src tgt)
          = [⟨freshPrNumber prs, src, tgt, "open", t1, d1, prUrl (freshPrNumber prs)⟩] := by
        rw [← hs1]
        simp [List.filter_append, h0, hnew]
      simp only [githubCreatePullRequest, hf1] at h2
      rw [Prod.mk.injEq] at h2
      obtain ⟨hs2, hl2⟩ := h2
      refine ⟨?_, ?_, ?_, ?_⟩
      · rw [openPrCount, ← hs2, filter_prPatch, hf1]
        simp [openPrCount, h0]
      · rw [← hs2]
        simp
      · rw [hf1]
        simp [hl2]
      · refine ⟨⟨freshPrNumber prs, src, tgt, "open", t1, d1, prUrl (freshPrNumber prs)⟩,
          prPatch (⟨freshPrNumber prs, src, tgt, "open", t1, d1,
            prUrl (freshPrNumber prs)⟩ : PullReq).number t2 d2
            ⟨freshPrNumber prs, src, tgt, "open", t1, d1, prUrl (freshPrNumber prs)⟩,
          ?_, ?_, ?_, ?_, ?_⟩
        · rw [hf1]
          rfl
        · rw [← hs2]
          refine List.mem_map_of_mem _ ?_
          rw [← hs1]
          exact List.mem_append_right _ (List.mem_singleton.mpr rfl)
        · exact prPatch_self_title t2 d2 _
        · exact prPatch_self_body t2 d2 _
        · rw [prPatch_html_url]
          exact hl2
  | cons pr0 rest =>
      simp only [githubCreatePullRequest, h0] at h1
      rw [Prod.mk.injEq] at h1
      obtain ⟨hs1, hl1⟩ := h1
      have hf1 : s1.filter (prMatch src tgt)
          = prPatch pr0.number t1 d1 pr0 :: rest.map (prPatch pr0.number t1 d1) := by
        rw [← hs1, filter_prPatch, h0, List.map_cons]
      simp only [githubCreatePullRequest, hf1] at h2
      rw [Prod.mk.injEq] at h2
      obtain ⟨hs2, hl2⟩ := h2
      have hc : openPrCount prs src tgt = rest.length + 1 := by
        simp [openPrCount, h0]
      refine ⟨?_, ?_, ?_, ?_⟩
      · rw [openPrCount, ← hs2, filter_prPatch, hf1]
        simp [hc]
      · rw [← hs2]
        simp
      · rw [hf1]
        simp [hl2]
      · refine ⟨prPatch pr0.number t1 d1 pr0,
          prPatch (prPatch pr0.number t1 d1 pr0).number t2 d2
          (prPatch pr0.number t1 d1 pr0), ?_, ?_, ?_, ?_, ?_⟩
        · rw [hf1]
          rfl
        · rw [← hs2]
          refine List.mem_map_of_mem _ ?_
          have hm : prPatch pr0.number t1 d1 pr0 ∈ s1.filter (prMatch src tgt) := by
            rw [hf1]
            exact List.mem_cons_self _ _
          exact List.mem_of_mem_filter hm
        · exact prPatch_self_title t2 d2 _
        · exact prPatch_self_body t2 d2 _
        · rw [prPatch_html_url]
          exact hl2

/-- C4 witness: an empty store, then two runs for ("feature", "main"):
exactly one open PR results. -/
theorem c4_pr_dedup_witness :
    openPrCount (githubCreatePullRequest
        (githubCreatePullRequest [] "feature" "main" "A" none).1
        "feature" "main" "B" (some "desc")).1 "feature" "main" = 1 := by
  have h := c4_pr_dedup [] "feature" "main" "A" "B" none (some "desc")
      (githubCreatePullRequest [] "feature" "main" "A" none).1
      (githubCreatePullRequest [] "feature" "main" "A" none).2
      (githubCreatePullRequest
        (githubCreatePullRequest [] "feature" "main" "A" none).1
        "feature" "main" "B" (some "desc")).1
      (githubCreatePullRequest
        (githubCreatePullRequest [] "feature" "main" "A" none).1
        "feature" "main" "B" (some "desc")).2
      rfl rfl
  simpa [openPrCount] using h.1

/-!
Commit transaction, `GithubProvider.commitChanges`
(src/providers/github.ts:169-211): resolve the branch's base tree and
parent commit, build a blob for every non-null content and a `sha: null`
marker for every null, post the combined tree onto the base tree, create
the commit and repoint the ref.  Neither `commitChanges` nor `createPr`
wraps any of these requests in a try/catch, so any endpoint failure thrown
by `request` (src/providers/github.ts:42-47) propagates to the caller;
the same holds for `BitbucketProvider.commitChanges`
(src/providers/bitbucket.ts:183-203).  Whether the provider's endpoint
rejects a delete marker for a path absent from the base tree is remote
behavior outside the repository; it is the `strictDelete` parameter below,
with a fixed rejection response, following the spec's premise that "some
APIs 404 on deleting a nonexistent path".
-/

/-- The tree endpoint applying one entry of the posted tree onto the base
tree: a non-null content writes the blob; a `sha: null` entry removes the
path, and for an absent path it errors when `strictDelete` and is a no-op
otherwise. -/
def applyTreeEntry (strictDelete : Bool) (t : String → Option String) :
    String × Option String → Except String (String → Option String)
  | (path, some c) => .ok (storeSet t path (some c))
  | (path, none) =>
      if (t path).isSome then .ok (storeSet t path none)
      else if strictDelete then
        .error (githubApiError ⟨422, "Unprocessable Entity", "delete of absent path"⟩)
      else .ok t

/-- `commitChanges(branchName, changes, commitMessage)`
(src/providers/github.ts:169-211) as the tree transformation it commits:
the posted tree layers every change onto the branch's base tree; the first
endpoint rejection propagates (there is no catch in the transaction layer).
On success the branch head advances to a commit holding the returned tree. -/
def githubCommitChanges (strictDelete : Bool) (tree : String → Option String) :
    List (String × Option String) → Except String (String → Option String)
  | [] => .ok tree
  | e :: rest =>
      match applyTreeEntry strictDelete tree e with
      | .error m => .error m
      | .ok t1 => githubCommitChanges strictDelete t1 rest

/-- C6: committing `{"ghost.txt": null}` on a branch that never held
"ghost.txt".  Against an endpoint that treats delete-of-absent as a no-op
the commit succeeds and the tree is unchanged at that path (first
conjunct); against an endpoint that rejects delete-of-absent the rejection
propagates out of the transaction layer — nothing swallows it — and the
commit fails (second conjunct), contrary to the claim's guarantee of
unconditional success. -/
theorem c6_delete_of_absent_not_swallowed :
    ((githubCommitChanges false
        (fun p => if p = "keep.txt" then some "k" else none)
        [("ghost.txt", none)]).map (fun t => (t "ghost.txt", t "keep.txt")))
      = .ok (none, some "k")
    ∧ githubCommitChanges true
        (fun p => if p = "keep.txt" then some "k" else none)
        [("ghost.txt", none)]
      = .error (githubApiError ⟨422, "Unprocessable Entity", "delete of absent path"⟩) :=
  ⟨rfl, rfl⟩

/-!
The `omnipr` entry point and the provider's fetch member
(src/omnipr.ts:3-9, src/providers/github.ts:14, 30-54).  Fetch functions
are identified by numeric ids; `globalFetchId` stands for
`globalThis.fetch`.  Only the `customFetch` option affects the provider's
`fetch` member, so the options object is represented by that field.
-/

/-- The identity of `globalThis.fetch`. -/
def globalFetchId : Nat := 0

/-- The mutable state of a provider instance relevant to fetch selection:
its public `fetch` member, initialized to `globalThis.fetch`
(src/providers/github.ts:14). -/
structure ProviderState where
  fetchId : Nat
  deriving DecidableEq, Repr

/-- A freshly constructed provider: `public fetch: typeof fetch =
globalThis.fetch`. -/
def initProvider : ProviderState := ⟨globalFetchId⟩

/-- The head of `omnipr(provider, options)` (src/omnipr.ts:7-9):
`if (options.customFetch) { provider.fetch = options.customFetch; }` —
run before any operation; a function value is always truthy. -/
def omniprApplyFetch (p : ProviderState) (customFetch : Option Nat) : ProviderState :=
  match customFetch with
  | some f => { p with fetchId := f }
  | none => p

/-- The fetch function used by `GithubProvider.request`
(src/providers/github.ts:36): `this.fetch`. -/
def requestFetch (p : ProviderState) : Nat := p.fetchId

/-- The fetch function used by `GithubProvider.getFileContent`
(src/providers/github.ts:86): the bare global `fetch`, not `this.fetch`. -/
def getFileContentFetch (_p : ProviderState) : Nat := globalFetchId

/-- C10 counterexample: after `omnipr` substitutes a custom fetch (id 7),
a request issued by `getFileContent` still uses the global fetch, so not
all subsequent requests made through the instance use the substituted
fetch function. -/
theorem c10_getFileContent_bypass_cex :
    requestFetch (omniprApplyFetch initProvider (some 7)) = 7
    ∧ getFileContentFetch (omniprApplyFetch initProvider (some 7)) = globalFetchId
    ∧ globalFetchId ≠ 7 :=
  ⟨rfl, rfl, by decide⟩

/-- C10 (amended): when `options.customFetch` is set, `omnipr` assigns it
to `provider.fetch` before any operation runs; the mutation persists, so a
later `omnipr` call without `customFetch` leaves the substituted fetch in
place and requests issued through the provider's `request` helper use it;
when `customFetch` is absent the provider is unchanged.  Requests issued by
`getFileContent` (and the Bitbucket `pull` listing), which call the global
`fetch` directly, are unaffected by the substitution. -/
theorem c10_customFetch_mutation (p : ProviderState) (f : Nat) :
    (omniprApplyFetch p (some f)).fetchId = f
    ∧ requestFetch (omniprApplyFetch p (some f)) = f
    ∧ omniprApplyFetch (omniprApplyFetch p (some f)) none = omniprApplyFetch p (some f)
    ∧ requestFetch (omniprApplyFetch (omniprApplyFetch p (some f)) none) = f
    ∧ omniprApplyFetch p none = p
    ∧ getFileContentFetch (omniprApplyFetch p (some f)) = globalFetchId :=
  ⟨rfl, rfl, rfl, rfl, rfl, rfl⟩

/-!
Tree reader, `GithubProvider.pull` (src/providers/github.ts:108-167) with
`getFileContent` (src/providers/github.ts:82-106), over a remote modelled
by the responses it serves: the branch request, the recursive tree request
with its parsed entries, and one content response per file path.
The `fileContentsMap` assembled concurrently is embedded as an association
list in selection order.
-/

/-- `normalizeDirectoryPath` (src/shared/path-utils, src/unnamed/part_010):
`path.replace(/\\\\/g, "/")` replaces each pair of consecutive backslashes
with a slash. -/
def replaceBackslashPairs : List Char → List Char
  | '\\' :: '\\' :: rest => '/' :: replaceBackslashPairs rest
  | c :: rest => c :: replaceBackslashPairs rest
  | [] => []

/-- The regex `/^\/|\/$/g`: remove one leading slash, if any. -/
def stripLeadSlash (l : List Char) : List Char :=
  match l with
  | '/' :: rest => rest
  | _ => l

/-- The regex `/^\/|\/$/g`: remove one trailing slash, if any. -/
def stripTrailSlash (l : List Char) : List Char :=
  (stripLeadSlash l.reverse).reverse

/-- `normalizeDirectoryPath` (src/unnamed/part_010): convert doubled
backslashes to slashes, strip one leading and one trailing slash unless the
path is exactly "/", and map "." to the empty string. -/
def normalizeDirectoryPath (path : String) : String :=
  let p1 := String.mk (replaceBackslashPairs path.data)
  let p2 := if p1 != "/" then String.mk (stripTrailSlash (stripLeadSlash p1.data)) else p1
  if p2 == "." then "" else p2

/-- An entry of a directory listing: `{ path, type }`
(src/providers/github.ts:119-121, src/providers/bitbucket.ts:140-143). -/
structure TreeEntry where
  path : String
  type : String
  deriving DecidableEq, Repr

/-- The scope match of the tree readers (src/providers/github.ts:130-141,
src/providers/bitbucket.ts:149-160): under an empty normalized path every
entry matches with its full path as relative path; otherwise an entry
matches when its path starts with `${normalizedDirectoryPath}/`, and the
relative path is the remainder. -/
def scopeRel (nd : String) (fullPath : String) : Option String :=
  if nd == "" then some fullPath
  else if jsStartsWith fullPath (nd ++ "/") then
    some (String.mk (fullPath.data.drop (nd.length + 1)))
  else none

/-- The `filesToFetch` selection of `GithubProvider.pull`
(src/providers/github.ts:125-148): blobs in scope, and when not recursive
only those whose relative path contains no separator. -/
def githubSelectFiles (nd : String) (recursive : Bool)
    (entries : List TreeEntry) : List (String × String) :=
  entries.filterMap fun e =>
    if e.type != "blob" then none
    else
      match scopeRel nd e.path with
      | none => none
      | some rel =>
          if recursive || !(rel.data.contains '/') then some (e.path, rel) else none

/-- The responses a GitHub remote serves to one `pull` invocation. -/
structure GithubRemote where
  branchResp : HttpResp
  treeResp : HttpResp
  entries : List TreeEntry
  contentResp : String → HttpResp

/-- `GithubProvider.getFileContent` (src/providers/github.ts:82-106):
an ok response yields its text; a 404 yields `undefined`; any other
failure throws the composed API error. -/
def githubGetFileContent (remote : GithubRemote) (filePath : String) :
    Except String (Option String) :=
  let r := remote.contentResp filePath
  if respOk r then .ok (some r.body)
  else if r.status == 404 then .ok none
  else .error (githubApiError r)

/-- The content-fetch phase of `GithubProvider.pull`
(src/providers/github.ts:150-158): fetch every selected file, keep the
defined contents keyed by relative path, and fail on the first thrown
fetch error. -/
def githubFetchAll (remote : GithubRemote) :
    List (String × String) → Except String (List (String × String))
  | [] => .ok []
  | (fullPath, rel) :: rest =>
      match githubGetFileContent remote fullPath with
      | .error e => .error e
      | .ok none => githubFetchAll remote rest
      | .ok (some c) =>
          match githubFetchAll remote rest with
          | .error e => .error e
          | .ok m => .ok ((rel, c) :: m)

/-- The body of the `try` block of `GithubProvider.pull`
(src/providers/github.ts:113-160): branch request, tree request, selection,
content fetches. -/
def githubPullBody (remote : GithubRemote) (path : String) (recursive : Bool) :
    Except String (List (String × String)) :=
  if !(respOk remote.branchResp) then .error (githubApiError remote.branchResp)
  else if !(respOk remote.treeResp) then .error (githubApiError remote.treeResp)
  else
    githubFetchAll remote
      (githubSelectFiles (normalizeDirectoryPath path) recursive remote.entries)

/-- `GithubProvider.pull` (src/providers/github.ts:108-167): the catch
clause returns an empty map when the thrown error's message contains the
substring "404 Not Found", and rethrows otherwise. -/
def githubPull (remote : GithubRemote) (path : String) (recursive : Bool) :
    Except String (List (String × String)) :=
  match githubPullBody remote path recursive with
  | .ok m => .ok m
  | .error msg => if jsIncludes msg "404 Not Found" then .ok [] else .error msg

/-- A listing failure whose status is 500 but whose body happens to contain
the text "404 Not Found". -/
def sneakyRemote : GithubRemote :=
  ⟨⟨200, "OK", "{}"⟩,
   ⟨500, "Internal Server Error", "upstream proxy replied 404 Not Found"⟩,
   [], fun _ => ⟨200, "OK", ""⟩⟩

/-- C8 counterexample: a listing failure with status 500 — not 404 — is
swallowed instead of propagating, because the catch clause of `pull`
detects benignity by searching the composed message for the substring
"404 Not Found" and the body of this 500 response contains that text:
the read returns an empty map instead of an error. -/
theorem c8_status_vs_message_cex :
    sneakyRemote.treeResp.status = 500
    ∧ githubPull sneakyRemote "./" true = .ok [] :=
  ⟨rfl, rfl⟩

theorem githubFetchAll_clean (remote : GithubRemote) (l : List (String × String))
    (h : ∀ pr ∈ l, respOk (remote.contentResp pr.1) = true
        ∨ (remote.contentResp pr.1).status = 404) :
    githubFetchAll remote l
      = .ok (l.filterMap fun pr =>
          if respOk (remote.contentResp pr.1) then
            some (pr.2, (remote.contentResp pr.1).body)
          else none) := by
  induction l with
  | nil => rfl
  | cons pr rest ih =>
      obtain ⟨fullPath, rel⟩ := pr
      have hrest := ih (fun q hq => h q (List.mem_cons_of_mem _ hq))
      rcases h (fullPath, rel) (List.mem_cons_self _ _) with hok | h404
      · simp [githubFetchAll, githubGetFileContent, hok, hrest, List.filterMap_cons]
      · have hnotok : respOk (remote.contentResp fullPath) = false := by
          simp [respOk, h404]
        simp [githubFetchAll, githubGetFileContent, hnotok, h404, hrest,
          List.filterMap_cons]

theorem githubFetchAll_first_error (remote : GithubRemote)
    (l1 l2 : List (String × String)) (fp rel : String)
    (h1 : ∀ pr ∈ l1, respOk (remote.contentResp pr.1) = true
        ∨ (remote.contentResp pr.1).status = 404)
    (hfail : respOk (remote.contentResp fp) = false)
    (h404 : (remote.contentResp fp).status ≠ 404) :
    githubFetchAll remote (l1 ++ (fp, rel) :: l2)
      = .error (githubApiError (remote.contentResp fp)) := by
  induction l1 with
  | nil => simp [githubFetchAll, githubGetFileContent, hfail, h404]
  | cons pr rest ih =>
      obtain ⟨fp1, rel1⟩ := pr
      have hrest := ih (fun q hq => h1 q (List.mem_cons_of_mem _ hq))
      rcases h1 (fp1, rel1) (List.mem_cons_self _ _) with hok | hh404
      · simp [githubFetchAll, githubGetFileContent, hok, hrest]
      · have hnotok : respOk (remote.contentResp fp1) = false := by
          simp [respOk, hh404]
        simp [githubFetchAll, githubGetFileContent, hnotok, hh404, hrest]

/-- C8 (amended): during a tree read, a content fetch answering 404 is
excluded from the returned map while ok responses are kept (first
conjunct); a listing failure propagates exactly when the composed error
message `GitHub API error: <status> <statusText> - <body>` does not
contain the substring "404 Not Found" (second conjunct), and is swallowed
into an empty result when it does (third conjunct); a content-fetch
failure that is neither ok nor 404 likewise propagates its composed
message exactly when that message lacks the substring, and is otherwise
swallowed into an empty result (fourth conjunct) — benignity is decided
by that substring match on the message, not by the status code alone. -/
theorem c8_benign_404_amended (remote : GithubRemote) (path : String)
    (recursive : Bool) :
    (respOk remote.branchResp = true → respOk remote.treeResp = true →
      (∀ pr ∈ githubSelectFiles (normalizeDirectoryPath path) recursive remote.entries,
        respOk (remote.contentResp pr.1) = true
          ∨ (remote.contentResp pr.1).status = 404) →
      githubPull remote path recursive
        = .ok ((githubSelectFiles (normalizeDirectoryPath path) recursive
              remote.entries).filterMap
            fun pr =>
              if respOk (remote.contentResp pr.1) then
                some (pr.2, (remote.contentResp pr.1).body)
              else none))
    ∧ (respOk remote.branchResp = true → respOk remote.treeResp = false →
        jsIncludes (githubApiError remote.treeResp) "404 Not Found" = false →
        githubPull remote path recursive = .error (githubApiError remote.treeResp))
    ∧ (respOk remote.branchResp = true → respOk remote.treeResp = false →
        jsIncludes (githubApiError remote.treeResp) "404 Not Found" = true →
        githubPull remote path recursive = .ok [])
    ∧ (∀ (l1 l2 : List (String × String)) (fp rel : String),
        respOk remote.branchResp = true → respOk remote.treeResp = true →
        githubSelectFiles (normalizeDirectoryPath path) recursive remote.entries
          = l1 ++ (fp, rel) :: l2 →
        (∀ pr ∈ l1, respOk (remote.contentResp pr.1) = true
            ∨ (remote.contentResp pr.1).status = 404) →
        respOk (remote.contentResp fp) = false →
        (remote.contentResp fp).status ≠ 404 →
        githubPull remote path recursive
          = (if jsIncludes (githubApiError (remote.contentResp fp)) "404 Not Found"
             then .ok []
             else .error (githubApiError (remote.contentResp fp)))) := by
  refine ⟨fun hb ht hc => ?_, fun hb ht hm => ?_, fun hb ht hm => ?_,
    fun l1 l2 fp rel hb ht hsel h1 hfail h404 => ?_⟩
  · have hfa := githubFetchAll_clean remote
      (githubSelectFiles (normalizeDirectoryPath path) recursive remote.entries) hc
    simp [githubPull, githubPullBody, hb, ht, hfa]
  · simp [githubPull, githubPullBody, hb, ht, hm]
  · simp [githubPull, githubPullBody, hb, ht, hm]
  · have hfa := githubFetchAll_first_error remote l1 l2 fp rel h1 hfail h404
    simp [githubPull, githubPullBody, hb, ht, hsel, hfa]

/-- A remote with one fetchable blob, one blob answering 404 on content
fetch, and one directory entry. -/
def demoRemote : GithubRemote :=
  ⟨⟨200, "OK", "{}"⟩, ⟨200, "OK", "{}"⟩,
   [⟨"a.txt", "blob"⟩, ⟨"missing.txt", "blob"⟩, ⟨"sub", "tree"⟩],
   fun fp => if fp == "a.txt" then ⟨200, "OK", "alpha"⟩ else ⟨404, "Not Found", "gone"⟩⟩

/-- A remote whose second blob answers a plain 500 on content fetch. -/
def failRemote : GithubRemote :=
  ⟨⟨200, "OK", "{}"⟩, ⟨200, "OK", "{}"⟩,
   [⟨"a.txt", "blob"⟩, ⟨"bad.txt", "blob"⟩],
   fun fp => if fp == "a.txt" then ⟨200, "OK", "alpha"⟩
             else ⟨500, "Internal Server Error", "boom"⟩⟩

/-- C8 witness: the 404-answering file is silently excluded and the read
succeeds with the remaining file; a plain 500 content-fetch failure
propagates its composed message. -/
theorem c8_benign_404_amended_witness :
    githubPull demoRemote "./" true = .ok [("a.txt", "alpha")]
    ∧ githubPull failRemote "./" true
      = .error (githubApiError ⟨500, "Internal Server Error", "boom"⟩) :=
  ⟨(c8_benign_404_amended demoRemote "./" true).1 rfl rfl (by decide),
   (c8_benign_404_amended failRemote "./" true).2.2.2
     [("a.txt", "a.txt")] [] "bad.txt" "bad.txt" rfl rfl (by decide) (by decide)
     rfl (by decide)⟩

/-!
Tree reader pagination.  `BitbucketProvider.pull`
(src/providers/bitbucket.ts:121-181) starts from
`${baseUrl}/src/${branch}?pagelen=100` and loops `while (nextUrl)`,
following each page's `next` URL; the chain of pages served by the remote
is modelled as a list, the last page being the one whose `next` is absent.
`GitlabProvider.getFilesFromSourceBranch` (src/providers/gitlab.ts:143-151)
issues a single `GET repository/tree` request; that endpoint is paginated,
so its one response is the first page of the server's listing.
-/

/-- One page of the Bitbucket `src` listing: its HTTP response and its
parsed `values`. -/
structure BBPage where
  resp : HttpResp
  values : List TreeEntry
  deriving Repr

/-- `BitbucketProvider.getFileContent` (src/providers/bitbucket.ts:98-119):
ok yields the text, 404 yields `undefined`, anything else throws. -/
def bitbucketGetFileContent (contentResp : String → HttpResp) (filePath : String) :
    Except String (Option String) :=
  let r := contentResp filePath
  if respOk r then .ok (some r.body)
  else if r.status == 404 then .ok none
  else .error (bitbucketApiError r)

/-- Processing of one listing entry inside the page loop of
`BitbucketProvider.pull` (src/providers/bitbucket.ts:145-171): only
`commit_file` entries in scope are considered, non-recursive reads skip
nested paths, the content is fetched, and an undefined content is
skipped. -/
def bbEntryStep (contentResp : String → HttpResp) (nd : String) (recursive : Bool)
    (e : TreeEntry) : Except String (Option (String × String)) :=
  if e.type == "commit_file" then
    match scopeRel nd e.path with
    | none => .ok none
    | some rel =>
        if recursive || !(rel.data.contains '/') then
          match bitbucketGetFileContent contentResp e.path with
          | .error m => .error m
          | .ok none => .ok none
          | .ok (some c) => .ok (some (rel, c))
        else .ok none
  else .ok none

/-- The entry loop over one page's `values`
(src/providers/bitbucket.ts:145-171). -/
def bbProcessValues (contentResp : String → HttpResp) (nd : String)
    (recursive : Bool) : List TreeEntry → Except String (List (String × String))
  | [] => .ok []
  | e :: rest =>
      match bbEntryStep contentResp nd recursive e with
      | .error m => .error m
      | .ok none => bbProcessValues contentResp nd recursive rest
      | .ok (some kv) =>
          match bbProcessValues contentResp nd recursive rest with
          | .error m => .error m
          | .ok m => .ok (kv :: m)

/-- The `while (nextUrl)` page loop of `BitbucketProvider.pull`
(src/providers/bitbucket.ts:132-173): each page's response is checked,
its values are processed, and the loop continues with the next page until
the chain is exhausted. -/
def bbLoop (contentResp : String → HttpResp) (nd : String) (recursive : Bool) :
    List BBPage → Except String (List (String × String))
  | [] => .ok []
  | page :: rest =>
      if !(respOk page.resp) then .error (bitbucketApiError page.resp)
      else
        match bbProcessValues contentResp nd recursive page.values with
        | .error m => .error m
        | .ok m1 =>
            match bbLoop contentResp nd recursive rest with
            | .error m => .error m
            | .ok m2 => .ok (m1 ++ m2)

/-- `BitbucketProvider.pull` (src/providers/bitbucket.ts:121-181): the page
loop wrapped in the catch clause that turns a "404 Not Found" message into
an empty map and rethrows anything else. -/
def bitbucketPull (pages : List BBPage) (contentResp : String → HttpResp)
    (path : String) (recursive : Bool) : Except String (List (String × String)) :=
  match bbLoop contentResp (normalizeDirectoryPath path) recursive pages with
  | .ok m => .ok m
  | .error msg => if jsIncludes msg "404 Not Found" then .ok [] else .error msg

/-- The pure value one listing entry contributes to the result of
`BitbucketProvider.pull` when its content response is ok, and nothing
when it is skipped or answers 404. -/
def bbPure (contentResp : String → HttpResp) (nd : String) (recursive : Bool)
    (e : TreeEntry) : Option (String × String) :=
  if e.type == "commit_file" then
    match scopeRel nd e.path with
    | none => none
    | some rel =>
        if recursive || !(rel.data.contains '/') then
          if respOk (contentResp e.path) then some (rel, (contentResp e.path).body)
          else none
        else none
  else none

/-- `GitlabProvider.getFilesFromSourceBranch` (src/providers/gitlab.ts:132-179)
over a paginated listing: the single `GET repository/tree` request
(src/providers/gitlab.ts:143-151) returns only the first page of the
server's listing for the requested path, and no continuation is followed;
the projection is then applied to that page alone.  The older
`BitbucketProvider.getFilesFromSourceBranch` (src/unnamed/part_004:106-148)
likewise issues a single request with `pagelen: 100`. -/
def gitlabGetFilesPaged (pages : List (List (String × String)))
    (pathOpt : Option String) (filesOpt : Option (List String)) :
    List (String × String) :=
  let usePath := match pathOpt with | some p => strTruthy p | none => false
  let path := if usePath then normalizePath (pathOpt.getD "") else ""
  let filesToPick :=
    if usePath then filesOpt.map (List.map (fun f => path ++ "/" ++ f)) else filesOpt
  gitlabPickFiles (pages.headD []) filesToPick

/-- C9 counterexample: a two-page listing ("a.txt" on page 1, "b.txt" on
page 2).  The GitLab reader's result is derived from the first page alone:
"b.txt" is an entry of the listing but absent from the result, so the
caller observes a result derived from a strict subset of the pages. -/
theorem c9_first_page_only_cex :
    gitlabGetFilesPaged [[("a.txt", "1")], [("b.txt", "2")]] none none
      = [("a.txt", "1")]
    ∧ ("b.txt", "2")
        ∈ ([[("a.txt", "1")], [("b.txt", "2")]] : List (List (String × String))).flatten
    ∧ "b.txt" ∉
        (gitlabGetFilesPaged [[("a.txt", "1")], [("b.txt", "2")]] none none).map (·.1) :=
  ⟨rfl, by decide, by decide⟩

theorem bbEntryStep_clean (contentResp : String → HttpResp) (nd : String)
    (recursive : Bool) (e : TreeEntry)
    (h : respOk (contentResp e.path) = true ∨ (contentResp e.path).status = 404) :
    bbEntryStep contentResp nd recursive e
      = .ok (bbPure contentResp nd recursive e) := by
  unfold bbEntryStep bbPure bitbucketGetFileContent
  by_cases htype : e.type == "commit_file"
  · cases hsr : scopeRel nd e.path with
    | none => simp [htype, hsr]
    | some rel =>
        by_cases hrec : (recursive = true ∨ '/' ∉ rel.data)
        · rcases h with hok | h404
          · simp [htype, hsr, hrec, hok]
          · have hnotok : respOk (contentResp e.path) = false := by
              simp [respOk, h404]
            simp [htype, hsr, hrec, hnotok, h404]
        · simp [htype, hsr, hrec]
  · simp [htype]

theorem bbProcessValues_clean (contentResp : String → HttpResp) (nd : String)
    (recursive : Bool) (vals : List TreeEntry)
    (h : ∀ e ∈ vals, respOk (contentResp e.path) = true
        ∨ (contentResp e.path).status = 404) :
    bbProcessValues contentResp nd recursive vals
      = .ok (vals.filterMap (bbPure contentResp nd recursive)) := by
  induction vals with
  | nil => rfl
  | cons e rest ih =>
      have hrest := ih (fun q hq => h q (List.mem_cons_of_mem _ hq))
      have hstep := bbEntryStep_clean contentResp nd recursive e
        (h e (List.mem_cons_self _ _))
      cases hp : bbPure contentResp nd recursive e with
      | none => simp [bbProcessValues, hstep, hp, hrest, List.filterMap_cons]
      | some kv => simp [bbProcessValues, hstep, hp, hrest, List.filterMap_cons]

theorem bbLoop_clean (contentResp : String → HttpResp) (nd : String)
    (recursive : Bool) (pages : List BBPage)
    (hpg : ∀ pg ∈ pages, respOk pg.resp = true)
    (hc : ∀ pg ∈ pages, ∀ e ∈ pg.values, respOk (contentResp e.path) = true
        ∨ (contentResp e.path).status = 404) :
    bbLoop contentResp nd recursive pages
      = .ok ((pages.map (·.values)).flatten.filterMap
          (bbPure contentResp nd recursive)) := by
  induction pages with
  | nil => rfl
  | cons pg rest ih =>
      have h1 := hpg pg (List.mem_cons_self _ _)
      have h2 := bbProcessValues_clean contentResp nd recursive pg.values
        (hc pg (List.mem_cons_self _ _))
      have h3 := ih (fun q hq => hpg q (List.mem_cons_of_mem _ hq))
        (fun q hq => hc q (List.mem_cons_of_mem _ hq))
      simp [bbLoop, h1, h2, h3, List.filterMap_append]

/-- C9 (amended): the Bitbucket reader follows the page chain to
exhaustion, so on clean responses its result is the processing of the
concatenation of every page's entries — never a strict subset of the
pages (first conjunct).  The GitLab reader issues one unpaginated request:
its result is a function of the first page alone, identical whatever the
later pages hold (second conjunct). -/
theorem c9_pagination_amended (pages : List BBPage)
    (contentResp : String → HttpResp) (path : String) (recursive : Bool) :
    ((∀ pg ∈ pages, respOk pg.resp = true) →
      (∀ pg ∈ pages, ∀ e ∈ pg.values, respOk (contentResp e.path) = true
          ∨ (contentResp e.path).status = 404) →
      bitbucketPull pages contentResp path recursive
        = .ok ((pages.map (·.values)).flatten.filterMap
            (bbPure contentResp (normalizeDirectoryPath path) recursive)))
    ∧ (∀ (firstPage : List (String × String))
        (rest : List (List (String × String)))
        (pathOpt : Option String) (filesOpt : Option (List String)),
        gitlabGetFilesPaged (firstPage :: rest) pathOpt filesOpt
          = gitlabGetFilesPaged [firstPage] pathOpt filesOpt) := by
  constructor
  · intro hpg hc
    simp [bitbucketPull,
      bbLoop_clean contentResp (normalizeDirectoryPath path) recursive pages hpg hc]
  · intro firstPage rest pathOpt filesOpt
    rfl

/-- A two-page Bitbucket listing with one file per page. -/
def demoPages : List BBPage :=
  [⟨⟨200, "OK", ""⟩, [⟨"x.txt", "commit_file"⟩]⟩,
   ⟨⟨200, "OK", ""⟩, [⟨"y.txt", "commit_file"⟩, ⟨"sub", "commit_directory"⟩]⟩]

/-- Content responses for the two-page listing. -/
def demoContent : String → HttpResp :=
  fun fp =>
    if fp == "x.txt" then ⟨200, "OK", "X"⟩
    else if fp == "y.txt" then ⟨200, "OK", "Y"⟩
    else ⟨404, "Not Found", ""⟩

/-- C9 witness: both pages' files appear in the Bitbucket read result. -/
theorem c9_pagination_amended_witness :
    bitbucketPull demoPages demoContent "./" true = .ok [("x.txt", "X"), ("y.txt", "Y")] :=
  (c9_pagination_amended demoPages demoContent "./" true).1 (by decide) (by decide)
